import Mathlib

/-!
Shallow embedding of the EdgeNet role-request controller
(pkg/controller/registration/v1alpha/rolerequest/controller.go).

Times are modelled as natural numbers (seconds).  External collaborators
(the cluster API server, the mail parser, the authorizer) are modelled as
oracle fields of an `Env` record: each `Option` field is `none` when the
corresponding API call fails and `some` carrying the call's result
otherwise, and each `Bool` field records whether a write call succeeds.
The `Update` call on a role request is modelled as returning the object
exactly as sent, which matches the controller's visible use of the
response (it deep-copies it back into the working variable).
-/

namespace EdgeNet

/-! ### Status strings, verbatim from the Go constants -/

def failure : String := "Failure"

def pending : String := "Pending"

def approved : String := "Approved"

def messageAUPNotAgreed : String := "Waiting for the Acceptable Use Policy to be agreed"

def messageAUPFailed : String := "Acceptable Use Policy creation failed"

def messageRoleNotFound : String := "Requested Role / Cluster Role does not exist"

def messageRoleNotApproved : String := "Waiting for Requested Role / Cluster Role to be approved"

def messageRoleApproved : String := "Requested Role / Cluster Role approved successfully"

def messageBindingFailed : String := "Role binding failed"

/-- 72 hours, in seconds: the approval timeout added by `applyProcedure`. -/
def approvalTTL : Nat := 72 * 60 * 60

/-- One year in seconds: models `time.Now().AddDate(1, 0, 0)` in the expiry
controller. -/
def yearSeconds : Nat := 365 * 24 * 60 * 60

def aupLabelKey : String := "edge-net.io/acceptable-use-policy"

/-! ### Data model -/

structure RoleRef where
  kind : String
  name : String
deriving DecidableEq, Repr

structure RoleRequestSpec where
  firstName : String
  lastName : String
  email : String
  roleRef : RoleRef
  approved : Bool
  authentication : List String
deriving DecidableEq, Repr

structure RoleRequestStatus where
  state : String
  message : String
  expiry : Option Nat
deriving DecidableEq, Repr

/-- Go map lookup over an association list of labels: a missing key yields
the empty string, as in Go's `labels["k"]`. -/
def lookupLabel (ls : List (String × String)) (k : String) : String :=
  match ls.find? (fun kv => kv.1 == k) with
  | some kv => kv.2
  | none => ""

structure RoleRequest where
  nsName : String
  name : String
  creationTime : Nat
  labels : List (String × String)
  spec : RoleRequestSpec
  status : RoleRequestStatus
deriving DecidableEq, Repr

structure Tenant where
  uid : String
  enabled : Bool
deriving DecidableEq, Repr

structure AcceptableUsePolicy where
  name : String
  email : String
  accepted : Bool
deriving DecidableEq, Repr

structure Subject where
  kind : String
  name : String
deriving DecidableEq, Repr

structure RoleBinding where
  name : String
  subjects : List Subject
deriving DecidableEq, Repr

/-! ### Environment: one reconcile's view of the outside world -/

structure Env where
  /-- `time.Now()` at this reconcile, in seconds. -/
  now : Nat
  /-- UID of the `kube-system` namespace; `none` models the Get failing. -/
  systemNsUID : Option String
  /-- labels of the request's namespace; `none` models the Get failing. -/
  reqNsLabels : Option (List (String × String))
  /-- tenant lookup by (lowercased) name; `none` models a Get error,
  including not-found. -/
  tenants : String → Option Tenant
  /-- result of listing ClusterRoles (names only); `none` models a List error. -/
  clusterRoles : Option (List String)
  /-- result of listing Roles in the request's namespace (names only). -/
  roles : Option (List String)
  /-- acceptable-use-policy Get by name; `none` models a Get error. -/
  aupGet : String → Option AcceptableUsePolicy
  /-- result of listing generated acceptable-use policies. -/
  aupList : Option (List AcceptableUsePolicy)
  /-- whether creating a new acceptable-use policy succeeds. -/
  aupCreateOk : Bool
  /-- the random suffix `util.GenerateRandomString(6)` for a new policy name. -/
  aupSuffix : String
  /-- whether the label-persisting Update of the role request succeeds. -/
  rrUpdateOk : Bool
  /-- result of listing generated role bindings in the namespace
  (binding stage); `none` models a List error. -/
  roleBindings : Option (List RoleBinding)
  /-- whether the role-binding Update succeeds. -/
  rbUpdateOk : Bool
  /-- whether the role-binding Create succeeds. -/
  rbCreateOk : Bool
  /-- result of the notification goroutine's own role-binding List. -/
  notifBindings : Option (List RoleBinding)
  /-- oracle for `mail.ParseAddress` succeeding on a subject name. -/
  validEmail : String → Bool
  /-- oracle for the SubjectAccessReview allowing the subject. -/
  sarAllowed : String → Bool
  /-- whether client-certificate generation succeeds. -/
  certOk : Bool
  /-- whether kubeconfig generation succeeds. -/
  configOk : Bool

/-! ### Result of one `applyProcedure` run: final object state plus the
side-effecting calls it issued -/

structure ProcResult where
  status : RoleRequestStatus
  labels : List (String × String)
  /-- whether the deferred `UpdateStatus` call was issued. -/
  statusWritten : Bool
  /-- whether the role request itself was deleted (permission denial). -/
  deleted : Bool
  /-- whether any acceptable-use-policy Get/List/Create call was made. -/
  aupAccessed : Bool
  /-- the acceptable-use policy successfully created, if any. -/
  aupCreated : Option AcceptableUsePolicy
  /-- whether a label-persisting Update of the request was issued. -/
  labelUpdateIssued : Bool
  /-- whether the pending-approval notification was dispatched
  (goroutine reached `sendRoleRequestNotification` with a nonempty list). -/
  pendingNotified : Bool
  /-- whether the approved notification was dispatched. -/
  approvedNotified : Bool
  /-- payload of the role-binding Update call, if one was issued. -/
  rbUpdated : Option RoleBinding
  /-- payload of the role-binding Create call, if one was issued. -/
  rbCreated : Option RoleBinding
deriving DecidableEq, Repr

/-- A result with a given status and labels and no side effects recorded. -/
def baseResult (st : RoleRequestStatus) (ls : List (String × String)) : ProcResult :=
  { status := st, labels := ls, statusWritten := false, deleted := false,
    aupAccessed := false, aupCreated := none, labelUpdateIssued := false,
    pendingNotified := false, approvedNotified := false,
    rbUpdated := none, rbCreated := none }

/-! ### Stage 1: permission check (controller.go lines 283-306) -/

inductive PermCheck where
  /-- a namespace or tenant lookup failed: the procedure returns early. -/
  | earlyExit
  /-- the check completed with the given verdict and namespace labels. -/
  | decided (permitted : Bool) (nsLabels : List (String × String))
deriving DecidableEq, Repr

def permCheck (env : Env) : PermCheck :=
  match env.systemNsUID with
  | none => .earlyExit
  | some sysUID =>
    match env.reqNsLabels with
    | none => .earlyExit
    | some nsLabels =>
      if sysUID == lookupLabel nsLabels "edge-net.io/cluster-uid" then
        match env.tenants ((lookupLabel nsLabels "edge-net.io/tenant").toLower) with
        | none => .earlyExit
        | some t =>
          if t.uid == lookupLabel nsLabels "edge-net.io/tenant-uid" && t.enabled then
            .decided true nsLabels
          else
            .decided false nsLabels
      else
        .decided true nsLabels

/-! ### Stage 2: role existence (controller.go lines 311-328) -/

def roleExistsOf (env : Env) (req : RoleRequest) : Bool :=
  if req.spec.roleRef.kind == "ClusterRole" then
    match env.clusterRoles with
    | some l => l.contains req.spec.roleRef.name
    | none => false
  else if req.spec.roleRef.kind == "Role" then
    match env.roles with
    | some l => l.contains req.spec.roleRef.name
    | none => false
  else false

/-! ### Stage 3: acceptable-use-policy resolution (lines 341-397) -/

structure AupStage where
  /-- the auto-creation of a policy was attempted and failed. -/
  createFailed : Bool
  policyAgreed : Bool
  labels : List (String × String)
  created : Option AcceptableUsePolicy
  labelUpdateIssued : Bool
deriving DecidableEq, Repr

def aupStage (env : Env) (req : RoleRequest) : AupStage :=
  let curLabel := lookupLabel req.labels aupLabelKey
  let s1 : Bool × Bool × List (String × String) × Bool :=
    if curLabel ≠ "" then
      match env.aupGet curLabel with
      | some p =>
        if p.email == req.spec.email then (true, p.accepted, req.labels, false)
        else (false, false, req.labels, false)
      | none => (false, false, req.labels, false)
    else
      match env.aupList with
      | none => (false, false, req.labels, false)
      | some ps =>
        match ps.find? (fun p => p.email == req.spec.email) with
        | some p => (true, p.accepted, [(aupLabelKey, p.name)], true)
        | none => (false, false, req.labels, false)
  if s1.1 then
    { createFailed := false, policyAgreed := s1.2.1, labels := s1.2.2.1,
      created := none, labelUpdateIssued := s1.2.2.2 }
  else
    let newAup : AcceptableUsePolicy :=
      { name := req.name ++ "-" ++ env.aupSuffix, email := req.spec.email,
        accepted := false }
    if env.aupCreateOk then
      { createFailed := false, policyAgreed := s1.2.1,
        labels := [(aupLabelKey, newAup.name)],
        created := some newAup, labelUpdateIssued := true }
    else
      { createFailed := true, policyAgreed := s1.2.1, labels := s1.2.2.1,
        created := none, labelUpdateIssued := s1.2.2.2 }

/-! ### Notification goroutine (lines 416-447) -/

/-- whether `pat` occurs in `s` as a substring; used for the regex
`(.*)(owner|admin|manager)(.*)`, which is plain containment. -/
def containsSub (s pat : String) : Bool := (s.splitOn pat).length > 1

def nameMatchesApprover (name : String) : Bool :=
  containsSub name "owner" || containsSub name "admin" || containsSub name "manager"

def approverEmails (env : Env) : List String :=
  match env.notifBindings with
  | none => []
  | some rbs =>
    ((rbs.filter (fun rb => nameMatchesApprover rb.name)).map
      (fun rb => (rb.subjects.filter
        (fun s => s.kind == "User" && env.validEmail s.name && env.sarAllowed s.name)).map
          (fun s => s.name))).flatten

/-! ### Stage 4: role binding (lines 456-500) -/

def mkSubject (email : String) : Subject := { kind := "User", name := email }

def isTargetBinding (req : RoleRequest) (rb : RoleBinding) : Bool :=
  (req.spec.roleRef.kind == "Role" &&
    rb.name == "edgenet:role:" ++ req.spec.roleRef.name)
  || (req.spec.roleRef.kind == "ClusterRole" &&
    rb.name == "edgenet:clusterrole:" ++ req.spec.roleRef.name)

def hasEmailSubject (rb : RoleBinding) (email : String) : Bool :=
  rb.subjects.any (fun s => s.kind == "User" && s.name == email)

structure BindScan where
  bindingExists : Bool
  roleBound : Bool
  updated : Option RoleBinding
  updateFailed : Bool
deriving DecidableEq, Repr

/-- The loop over listed generated role bindings.  The two extra arguments
carry the Go loop's `roleBindingExists` and `roleBound` flags. -/
def bindScan (env : Env) (req : RoleRequest) :
    List RoleBinding → Bool → Bool → BindScan
  | [], ex, bd =>
    { bindingExists := ex, roleBound := bd, updated := none, updateFailed := false }
  | rb :: rest, ex, bd =>
    if isTargetBinding req rb then
      let bd' := bd || hasEmailSubject rb req.spec.email
      if bd' then bindScan env req rest true bd'
      else
        let rb' := { rb with subjects := rb.subjects ++ [mkSubject req.spec.email] }
        if env.rbUpdateOk then
          { bindingExists := true, roleBound := true, updated := some rb',
            updateFailed := false }
        else
          { bindingExists := true, roleBound := false, updated := some rb',
            updateFailed := true }
    else bindScan env req rest ex bd

/-- name of a binding created afresh: lowercased kind and role name. -/
def newBindingOf (req : RoleRequest) : RoleBinding :=
  { name := "edgenet:" ++ req.spec.roleRef.kind.toLower ++ ":"
      ++ req.spec.roleRef.name.toLower,
    subjects := [mkSubject req.spec.email] }

/-- successfully provisioned authentication methods (lines 502-518). -/
def authMethods (env : Env) (methods : List String) : List String :=
  (methods.map (fun m =>
    (if m.toLower == "client-certificate" then
      (if env.certOk && env.configOk then [m.toLower] else []) else [])
    ++ (if m.toLower == "oidc" then [m.toLower] else []))).flatten

/-! ### The procedure body (after expiry initialization) -/

def applyCore (env : Env) (req : RoleRequest) : ProcResult :=
  match permCheck env with
  | .earlyExit => baseResult req.status req.labels
  | .decided false _ =>
    { baseResult req.status req.labels with deleted := true }
  | .decided true _ =>
    if !(roleExistsOf env req) then
      baseResult { req.status with state := failure, message := messageRoleNotFound }
        req.labels
    else
      let aup := aupStage env req
      if aup.createFailed then
        { baseResult { req.status with state := failure, message := messageAUPFailed }
            aup.labels with
          aupAccessed := true, aupCreated := aup.created,
          labelUpdateIssued := aup.labelUpdateIssued }
      else if !aup.policyAgreed then
        { baseResult { req.status with state := pending, message := messageAUPNotAgreed }
            aup.labels with
          aupAccessed := true, aupCreated := aup.created,
          labelUpdateIssued := aup.labelUpdateIssued }
      else
        if !req.spec.approved then
          let st := { req.status with state := pending, message := messageRoleNotApproved }
          if req.status.state == pending && req.status.message == messageRoleNotApproved then
            { baseResult st aup.labels with
              aupAccessed := true, aupCreated := aup.created,
              labelUpdateIssued := aup.labelUpdateIssued }
          else
            { baseResult st aup.labels with
              aupAccessed := true, aupCreated := aup.created,
              labelUpdateIssued := aup.labelUpdateIssued,
              pendingNotified := !(approverEmails env).isEmpty }
        else
          let stA := { req.status with state := approved, message := messageRoleApproved }
          match env.roleBindings with
          | none =>
            { baseResult stA aup.labels with
              aupAccessed := true, aupCreated := aup.created,
              labelUpdateIssued := aup.labelUpdateIssued }
          | some rbs =>
            let scan := bindScan env req rbs false false
            if scan.bindingExists then
              { baseResult
                  (if scan.updateFailed then
                    { stA with state := failure, message := messageBindingFailed }
                  else stA) aup.labels with
                aupAccessed := true, aupCreated := aup.created,
                labelUpdateIssued := aup.labelUpdateIssued,
                rbUpdated := scan.updated,
                approvedNotified := scan.roleBound }
            else
              if env.rbCreateOk then
                { baseResult stA aup.labels with
                  aupAccessed := true, aupCreated := aup.created,
                  labelUpdateIssued := aup.labelUpdateIssued,
                  rbCreated := some (newBindingOf req),
                  approvedNotified := true }
              else
                { baseResult
                    { stA with state := failure, message := messageBindingFailed }
                    aup.labels with
                  aupAccessed := true, aupCreated := aup.created,
                  labelUpdateIssued := aup.labelUpdateIssued,
                  rbCreated := some (newBindingOf req),
                  approvedNotified := false }

/-- Expiry initialization (lines 274-279): set expiry to now + 72h when
unset. -/
def initExpiry (env : Env) (req : RoleRequest) : RoleRequest :=
  { req with status :=
      match req.status.expiry with
      | none => { req.status with expiry := some (env.now + approvalTTL) }
      | some _ => req.status }

/-- `applyProcedure`: expiry initialization, then the procedure body, then
the deferred status update, issued iff the final status differs from the
snapshot taken at entry (deep equality). -/
def applyProcedure (env : Env) (req : RoleRequest) : ProcResult :=
  let r := applyCore env (initExpiry env req)
  { r with statusWritten := decide (r.status ≠ req.status) }

/-- the object as the next reconcile sees it after a status write and
possible label update. -/
def afterReconcile (req : RoleRequest) (r : ProcResult) : RoleRequest :=
  { req with status := r.status, labels := r.labels }

/-! ### syncHandler / processNextWorkItem (lines 189-249) -/

inductive GetRR where
  /-- the lister returned the object. -/
  | found (req : RoleRequest)
  /-- the lister returned a not-found error. -/
  | notFoundErr
  /-- the lister returned some other error. -/
  | apiError

/-- `syncHandler`: first component is whether an error is returned to the
work-queue driver, second the procedure result when it ran. -/
def syncHandler (g : GetRR) (env : Env) : Bool × Option ProcResult :=
  match g with
  | .apiError => (true, none)
  | .notFoundErr => (false, none)
  | .found req =>
    if req.status.state == approved then (false, none)
    else (false, some (applyProcedure env req))

/-- `processNextWorkItem` re-queues (AddRateLimited) exactly when
`syncHandler` returned an error. -/
def requeued (g : GetRR) (env : Env) : Bool := (syncHandler g env).1

/-! ### Expiry controller (RunExpiryController, lines 555-618) -/

/-- initial value of `closestExpiry`: Go's zero `time.Time`. -/
def schedInitialClosest : Nat := 0

/-- handling of a watch-observed expiry `t` (lines 587-591): re-arm iff
`closestExpiry.Sub(timeout) > 0`, i.e. iff `t` is strictly earlier. -/
def onNewExpiry (closest t : Nat) : Nat := if t < closest then t else closest

structure RRItem where
  nsName : String
  name : String
  expiry : Option Nat
deriving DecidableEq, Repr

/-- a listed request whose expiry has already passed (lines 599-600). -/
def isExpired (now : Nat) (r : RRItem) : Bool :=
  match r.expiry with
  | some e => e ≤ now
  | none => false

/-- the requests deleted on a timer fire. -/
def deletedOnFire (now : Nat) (items : List RRItem) : List RRItem :=
  items.filter (isExpired now)

/-- the fold over listed requests updating `closestExpiry`
(lines 598-607). -/
def fireFold (now : Nat) : Nat → List RRItem → Nat
  | c, [] => c
  | c, r :: rest =>
    match r.expiry with
    | none => fireFold now c rest
    | some e =>
      if e ≤ now then fireFold now c rest
      else fireFold now (if c ≤ now ∨ e < c then e else c) rest

/-- the deadline armed after a timer fire: the fold, then the sentinel
re-arm when nothing in the future was found (lines 609-612). -/
def fireRearm (now closest : Nat) (items : List RRItem) : Nat :=
  let c := fireFold now closest items
  if c ≤ now then now + yearSeconds else c

/-- expiries of surviving requests (strictly in the future). -/
def futureExpiries (now : Nat) (items : List RRItem) : List Nat :=
  items.filterMap (fun r =>
    match r.expiry with
    | some e => if now < e then some e else none
    | none => none)

/-! ### Concrete sample objects used by witnesses and counterexamples -/

def env0 : Env :=
  { now := 0, systemNsUID := some "sys-uid", reqNsLabels := some [],
    tenants := fun _ => none, clusterRoles := none, roles := none,
    aupGet := fun _ => none, aupList := none, aupCreateOk := false,
    aupSuffix := "abc123", rrUpdateOk := true, roleBindings := none,
    rbUpdateOk := true, rbCreateOk := true, notifBindings := none,
    validEmail := fun _ => true, sarAllowed := fun _ => true,
    certOk := true, configOk := true }

def req0 : RoleRequest :=
  { nsName := "ns1", name := "req1", creationTime := 0, labels := [],
    spec := { firstName := "Ada", lastName := "Lovelace", email := "ada@edge.io",
              roleRef := { kind := "Role", name := "collaborator" },
              approved := false, authentication := [] },
    status := { state := "", message := "", expiry := none } }

/-! ### Basic structural lemmas -/

/-- No branch of the procedure body ever touches `status.expiry`. -/
theorem applyCore_status_expiry (env : Env) (req : RoleRequest) :
    (applyCore env req).status.expiry = req.status.expiry := by
  simp only [applyCore]
  repeat' split
  all_goals rfl

/-- The expiry after a full reconcile: the entry value when set, otherwise
now + 72h. -/
theorem applyProcedure_status_expiry (env : Env) (req : RoleRequest) :
    (applyProcedure env req).status.expiry =
      match req.status.expiry with
      | none => some (env.now + approvalTTL)
      | some e => some e := by
  show (applyCore env (initExpiry env req)).status.expiry = _
  rw [applyCore_status_expiry]
  unfold initExpiry
  cases h : req.status.expiry <;> simp [h]

/-- **C1 (amended)**: on a reconcile that finds `status.expiry` unset, the
controller sets it to the reconcile time (`time.Now()`) + 72 hours — not to
the object's creation time + 72 hours — and any reconcile that finds it
already set leaves it unchanged, including the reconcile immediately
following the one that initialized it. -/
theorem expiry_initialized_once (env env' : Env) (req : RoleRequest) :
    (req.status.expiry = none →
      (applyProcedure env req).status.expiry = some (env.now + approvalTTL)) ∧
    (∀ e, req.status.expiry = some e →
      (applyProcedure env req).status.expiry = some e) ∧
    (applyProcedure env' (afterReconcile req (applyProcedure env req))).status.expiry
      = (applyProcedure env req).status.expiry := by
  refine ⟨?_, ?_, ?_⟩
  · intro h; rw [applyProcedure_status_expiry, h]
  · intro e h; rw [applyProcedure_status_expiry, h]
  · rw [applyProcedure_status_expiry]
    have h2 : (afterReconcile req (applyProcedure env req)).status.expiry
        = (applyProcedure env req).status.expiry := rfl
    rw [h2, applyProcedure_status_expiry]
    cases h : req.status.expiry <;> simp

/-- Witness for `expiry_initialized_once` at a concrete input. -/
theorem expiry_initialized_once_witness :
    req0.status.expiry = none ∧
      (applyProcedure { env0 with now := 10 } req0).status.expiry
        = some (10 + approvalTTL) :=
  ⟨rfl, (expiry_initialized_once { env0 with now := 10 } env0 req0).1 rfl⟩

/-- **C1 counterexample**: a request created at time 0 but first reconciled
at time 3600 gets expiry 3600 + 72h, not creation-time + 72h as the claim
states. -/
theorem expiry_not_creation_based :
    (applyProcedure { env0 with now := 3600, systemNsUID := none } req0).status.expiry
      ≠ some (req0.creationTime + approvalTTL) := by decide

/-- **C5 (confirmed)**: the deferred `UpdateStatus` call is issued if and
only if the status at the end of the reconcile differs (deep equality) from
the snapshot taken at entry. -/
theorem status_write_iff_changed (env : Env) (req : RoleRequest) :
    (applyProcedure env req).statusWritten = true ↔
      (applyProcedure env req).status ≠ req.status := by
  simp [applyProcedure]

/-- **C8 (amended)**: the expiry scheduler's `closestExpiry` starts at the
zero time (far past), not at now + 1 year; consequently every
watch-observed expiry is ignored while in the initial state.  On a
watch-observed expiry `t` with armed deadline `c`, the scheduler re-arms to
`t` exactly when `t` is strictly earlier than `c`. -/
theorem scheduler_initial_and_rearm :
    schedInitialClosest = 0 ∧
    (∀ t, onNewExpiry schedInitialClosest t = schedInitialClosest) ∧
    (∀ c t, t < c → onNewExpiry c t = t) ∧
    (∀ c t, c ≤ t → onNewExpiry c t = c) := by
  refine ⟨rfl, ?_, ?_, ?_⟩
  · intro t; simp [onNewExpiry, schedInitialClosest]
  · intro c t h; simp [onNewExpiry, h]
  · intro c t h; simp [onNewExpiry, Nat.not_lt.mpr h]

/-- Witness for `scheduler_initial_and_rearm` at concrete inputs. -/
theorem scheduler_rearm_witness :
    onNewExpiry 5 3 = 3 ∧ onNewExpiry 3 5 = 3 :=
  ⟨scheduler_initial_and_rearm.2.2.1 5 3 (by decide),
   scheduler_initial_and_rearm.2.2.2 3 5 (by decide)⟩

/-- **C8 counterexample**: at start time 0 the claimed sentinel would be
0 + 1 year, but the armed value is the zero time. -/
theorem scheduler_initial_not_sentinel :
    schedInitialClosest ≠ 0 + yearSeconds := by decide

/-- **C9 (amended)**: the sync handler returns an error to the work-queue
driver (causing a rate-limited re-queue) only when the initial role-request
lookup fails with a non-not-found error; a not-found lookup and every
reconcile that runs the procedure — including ones in which namespace,
tenant, role or policy API calls fail — return no error and are not
re-queued. -/
theorem requeue_only_on_lister_error (env : Env) (req : RoleRequest) :
    requeued .apiError env = true ∧
    requeued .notFoundErr env = false ∧
    requeued (.found req) env = false := by
  refine ⟨rfl, rfl, ?_⟩
  simp only [requeued, syncHandler]
  split <;> rfl

/-- **C9 counterexample**: the `kube-system` namespace lookup fails
(`systemNsUID = none`), yet the sync handler reports success and the key is
not re-queued. -/
theorem api_failure_not_requeued :
    requeued (.found req0) { env0 with systemNsUID := none } = false := by decide

/-! ### The approval-gate idempotence guard (C2) -/

theorem initExpiry_state (env : Env) (req : RoleRequest) :
    (initExpiry env req).status.state = req.status.state := by
  unfold initExpiry
  cases req.status.expiry <;> rfl

theorem initExpiry_message (env : Env) (req : RoleRequest) :
    (initExpiry env req).status.message = req.status.message := by
  unfold initExpiry
  cases req.status.expiry <;> rfl

/-- If the entry snapshot is already exactly (Pending, awaiting role
approval), no branch of the procedure body dispatches the pending-approval
notification. -/
theorem applyCore_pending_guard (env : Env) (req : RoleRequest)
    (h1 : req.status.state = pending)
    (h2 : req.status.message = messageRoleNotApproved) :
    (applyCore env req).pendingNotified = false := by
  simp only [applyCore]
  repeat' split
  all_goals simp_all [baseResult]

/-- The pending-approval notification is dispatched only from the branch
that leaves the status at exactly (Pending, awaiting role approval). -/
theorem applyCore_pendingNotified_status (env : Env) (req : RoleRequest)
    (h : (applyCore env req).pendingNotified = true) :
    (applyCore env req).status.state = pending ∧
    (applyCore env req).status.message = messageRoleNotApproved := by
  revert h
  simp only [applyCore]
  repeat' split
  all_goals intro h
  all_goals simp_all [baseResult]

theorem applyProcedure_pendingNotified (env : Env) (req : RoleRequest) :
    (applyProcedure env req).pendingNotified
      = (applyCore env (initExpiry env req)).pendingNotified := rfl

theorem applyProcedure_status (env : Env) (req : RoleRequest) :
    (applyProcedure env req).status = (applyCore env (initExpiry env req)).status := rfl

/-- **C2 (confirmed)**: if the status snapshot at entry is already exactly
(Pending, "Waiting for Requested Role / Cluster Role to be approved") the
reconcile dispatches no pending-approval notification; consequently two
consecutive reconciles of the same object dispatch at most one such
notification in total. -/
theorem pending_notification_no_duplicate (env env' : Env) (req : RoleRequest) :
    (req.status.state = pending → req.status.message = messageRoleNotApproved →
      (applyProcedure env req).pendingNotified = false) ∧
    ((if (applyProcedure env req).pendingNotified then 1 else 0) +
      (if (applyProcedure env'
            (afterReconcile req (applyProcedure env req))).pendingNotified
        then 1 else 0) ≤ 1) := by
  constructor
  · intro h1 h2
    rw [applyProcedure_pendingNotified]
    exact applyCore_pending_guard env _ (by rw [initExpiry_state, h1])
      (by rw [initExpiry_message, h2])
  · by_cases hb : (applyProcedure env req).pendingNotified = true
    · have hst := applyCore_pendingNotified_status env (initExpiry env req)
        (by rw [← applyProcedure_pendingNotified]; exact hb)
      have hs1 : (afterReconcile req (applyProcedure env req)).status.state = pending := by
        show (applyProcedure env req).status.state = pending
        rw [applyProcedure_status]; exact hst.1
      have hs2 : (afterReconcile req (applyProcedure env req)).status.message
          = messageRoleNotApproved := by
        show (applyProcedure env req).status.message = messageRoleNotApproved
        rw [applyProcedure_status]; exact hst.2
      have h2 : (applyProcedure env'
          (afterReconcile req (applyProcedure env req))).pendingNotified = false := by
        rw [applyProcedure_pendingNotified]
        exact applyCore_pending_guard env' _ (by rw [initExpiry_state]; exact hs1)
          (by rw [initExpiry_message]; exact hs2)
      simp [hb, h2]
    · simp only [Bool.not_eq_true] at hb
      cases hb2 : (applyProcedure env'
          (afterReconcile req (applyProcedure env req))).pendingNotified <;>
        simp [hb, hb2]

/-- Witness for `pending_notification_no_duplicate` at a concrete input. -/
theorem pending_notification_no_duplicate_witness :
    (applyProcedure env0
      { req0 with status :=
          { state := pending, message := messageRoleNotApproved,
            expiry := some 5 } }).pendingNotified = false :=
  (pending_notification_no_duplicate env0 env0
    { req0 with status :=
        { state := pending, message := messageRoleNotApproved,
          expiry := some 5 } }).1 rfl rfl

/-! ### Role-not-found short circuit (C3) -/

theorem applyCore_role_not_found (env : Env) (req : RoleRequest)
    (ns : List (String × String))
    (hp : permCheck env = .decided true ns)
    (hr : roleExistsOf env req = false) :
    applyCore env req =
      baseResult { req.status with state := failure, message := messageRoleNotFound }
        req.labels := by
  simp [applyCore, hp, hr]

/-- **C3 (confirmed)**: a permitted request whose referenced Role (in the
request's namespace) or ClusterRole is absent from the respective listing
ends with state = Failure and the role-not-found message, performs no
acceptable-use-policy call (and so creates no policy), is not deleted, and
a repeated reconcile in the same situation leaves the state Failure. -/
theorem role_not_found_terminal (env : Env) (req : RoleRequest)
    (ns : List (String × String))
    (hp : permCheck env = .decided true ns)
    (habs : (req.spec.roleRef.kind = "ClusterRole" ∧
        ∃ l, env.clusterRoles = some l ∧ req.spec.roleRef.name ∉ l) ∨
      (req.spec.roleRef.kind = "Role" ∧
        ∃ l, env.roles = some l ∧ req.spec.roleRef.name ∉ l)) :
    (applyProcedure env req).status.state = failure ∧
    (applyProcedure env req).status.message = messageRoleNotFound ∧
    (applyProcedure env req).aupAccessed = false ∧
    (applyProcedure env req).aupCreated = none ∧
    (applyProcedure env req).deleted = false ∧
    (applyProcedure env
        (afterReconcile req (applyProcedure env req))).status.state = failure := by
  have hr : roleExistsOf env req = false := by
    rcases habs with ⟨hk, l, hl, hnm⟩ | ⟨hk, l, hl, hnm⟩
    · simp [roleExistsOf, hk, hl, List.contains, hnm]
    · simp [roleExistsOf, hk, hl, List.contains, hnm]
  have h1 := applyCore_role_not_found env (initExpiry env req) ns hp hr
  have h2 := applyCore_role_not_found env
    (initExpiry env (afterReconcile req (applyProcedure env req))) ns hp hr
  refine ⟨?_, ?_, ?_, ?_, ?_, ?_⟩
  · show (applyCore env (initExpiry env req)).status.state = failure
    rw [h1]; rfl
  · show (applyCore env (initExpiry env req)).status.message = messageRoleNotFound
    rw [h1]; rfl
  · show (applyCore env (initExpiry env req)).aupAccessed = false
    rw [h1]; rfl
  · show (applyCore env (initExpiry env req)).aupCreated = none
    rw [h1]; rfl
  · show (applyCore env (initExpiry env req)).deleted = false
    rw [h1]; rfl
  · show (applyCore env
        (initExpiry env (afterReconcile req (applyProcedure env req)))).status.state
      = failure
    rw [h2]; rfl

/-- Witness for `role_not_found_terminal` at a concrete input: the role
listing succeeds but lacks the requested role name. -/
theorem role_not_found_terminal_witness :
    (applyProcedure { env0 with roles := some ["other-role"] } req0).status.state
        = failure ∧
    (applyProcedure { env0 with roles := some ["other-role"] } req0).aupAccessed
        = false :=
  ⟨(role_not_found_terminal { env0 with roles := some ["other-role"] } req0 []
      (by decide) (Or.inr ⟨rfl, ["other-role"], rfl, by decide⟩)).1,
   (role_not_found_terminal { env0 with roles := some ["other-role"] } req0 []
      (by decide) (Or.inr ⟨rfl, ["other-role"], rfl, by decide⟩)).2.2.1⟩

/-! ### Permission denial (C4) -/

theorem initExpiry_status_ne (env : Env) (req : RoleRequest)
    (h : req.status.expiry = none) :
    (initExpiry env req).status ≠ req.status := by
  intro he
  have h2 := congrArg RoleRequestStatus.expiry he
  simp [initExpiry, h] at h2

theorem initExpiry_status_eq (env : Env) (req : RoleRequest) (e : Nat)
    (h : req.status.expiry = some e) :
    (initExpiry env req).status = req.status := by
  simp [initExpiry, h]

/-- namespace labels marking a local, tenant-owned namespace. -/
def cexDenyLabels : List (String × String) :=
  [("edge-net.io/cluster-uid", "sys-uid"), ("edge-net.io/tenant", "t1"),
   ("edge-net.io/tenant-uid", "tu1")]

/-- environment whose tenant lookup fails (nonexistent tenant). -/
def cexDenyEnvNoTenant : Env := { env0 with reqNsLabels := some cexDenyLabels }

/-- environment whose tenant exists but carries a mismatched UID. -/
def cexDenyEnvBadTenant : Env :=
  { env0 with
    reqNsLabels := some cexDenyLabels,
    tenants := fun _ => some { uid := "other", enabled := true } }

/-- **C4 (amended)**: when the owning namespace is local and its tenant
*exists* but has a mismatched UID or is disabled, the reconcile deletes the
request and stops — but the deferred status update still issues an
`UpdateStatus` call (on the now-deleted object) exactly when the expiry was
unset at entry and so was initialized in this reconcile; a *nonexistent*
tenant (lookup error) instead ends the reconcile without deleting. -/
theorem permission_denied_behaviour (env : Env) (req : RoleRequest)
    (su : String) (ls : List (String × String)) (t : Tenant)
    (h1 : env.systemNsUID = some su)
    (h2 : env.reqNsLabels = some ls)
    (h3 : su = lookupLabel ls "edge-net.io/cluster-uid")
    (h4 : env.tenants ((lookupLabel ls "edge-net.io/tenant").toLower) = some t)
    (h5 : t.uid ≠ lookupLabel ls "edge-net.io/tenant-uid" ∨ t.enabled = false) :
    (applyProcedure env req).deleted = true ∧
    (applyProcedure env req).status.state = req.status.state ∧
    (applyProcedure env req).status.message = req.status.message ∧
    (req.status.expiry = none → (applyProcedure env req).statusWritten = true) ∧
    (∀ e, req.status.expiry = some e → (applyProcedure env req).statusWritten = false) ∧
    (applyProcedure env req).aupAccessed = false ∧
    (applyProcedure env req).rbUpdated = none ∧
    (applyProcedure env req).rbCreated = none ∧
    (∀ env₂ : Env, permCheck env₂ = .earlyExit →
      (applyProcedure env₂ req).deleted = false) := by
  have hb : (su == lookupLabel ls "edge-net.io/cluster-uid") = true := by
    rw [h3]; exact beq_self_eq_true _
  have hcond : (t.uid == lookupLabel ls "edge-net.io/tenant-uid" && t.enabled) = false := by
    rcases h5 with h5 | h5 <;> simp [h5]
  have hperm : permCheck env = .decided false ls := by
    simp [permCheck, h1, h2, h4, hb, hcond]
  have hcore : applyCore env (initExpiry env req) =
      { baseResult (initExpiry env req).status (initExpiry env req).labels with
        deleted := true } := by
    simp [applyCore, hperm]
  refine ⟨?_, ?_, ?_, ?_, ?_, ?_, ?_, ?_, ?_⟩
  · show (applyCore env (initExpiry env req)).deleted = true
    rw [hcore]
  · show (applyCore env (initExpiry env req)).status.state = req.status.state
    rw [hcore]; exact initExpiry_state env req
  · show (applyCore env (initExpiry env req)).status.message = req.status.message
    rw [hcore]; exact initExpiry_message env req
  · intro h
    show decide ((applyCore env (initExpiry env req)).status ≠ req.status) = true
    rw [hcore]
    exact decide_eq_true (initExpiry_status_ne env req h)
  · intro e h
    show decide ((applyCore env (initExpiry env req)).status ≠ req.status) = false
    rw [hcore]
    exact decide_eq_false (not_not_intro (initExpiry_status_eq env req e h))
  · show (applyCore env (initExpiry env req)).aupAccessed = false
    rw [hcore]; rfl
  · show (applyCore env (initExpiry env req)).rbUpdated = none
    rw [hcore]; rfl
  · show (applyCore env (initExpiry env req)).rbCreated = none
    rw [hcore]; rfl
  · intro env₂ hp2
    show (applyCore env₂ (initExpiry env₂ req)).deleted = false
    simp [applyCore, hp2, baseResult]

/-- Witness for `permission_denied_behaviour` at a concrete input. -/
theorem permission_denied_behaviour_witness :
    (applyProcedure cexDenyEnvBadTenant req0).deleted = true :=
  (permission_denied_behaviour cexDenyEnvBadTenant req0 "sys-uid" cexDenyLabels
    { uid := "other", enabled := true }
    rfl rfl (by decide) rfl (Or.inl (by decide))).1

/-- **C4 counterexample**: with a *nonexistent* tenant (lookup fails) the
request is *not* deleted, and in the delete case (UID mismatch) a status
write *is* issued because the expiry was just initialized — both contrary
to the claim. -/
theorem permission_denied_claim_false :
    (applyProcedure cexDenyEnvNoTenant req0).deleted = false ∧
    (applyProcedure cexDenyEnvBadTenant req0).deleted = true ∧
    (applyProcedure cexDenyEnvBadTenant req0).statusWritten = true := by
  refine ⟨?_, ?_, ?_⟩ <;> decide

/-! ### Label replacement when persisting the policy back-reference (C10) -/

theorem lookupLabel_singleton_ne (k key v : String) (h : k ≠ key) :
    lookupLabel [(key, v)] k = "" := by
  have hb : (key == k) = false := beq_eq_false_iff_ne.mpr (Ne.symm h)
  simp [lookupLabel, List.find?, hb]

theorem applyCore_labels_post_role (env : Env) (req : RoleRequest)
    (ns : List (String × String))
    (hp : permCheck env = .decided true ns)
    (hr : roleExistsOf env req = true) :
    (applyCore env req).labels = (aupStage env req).labels ∧
    (applyCore env req).labelUpdateIssued = (aupStage env req).labelUpdateIssued := by
  simp only [applyCore, hp, hr, Bool.not_true]
  constructor <;> (repeat' split) <;> simp_all [baseResult]

theorem aupStage_adopt (env : Env) (req : RoleRequest)
    (hlab : lookupLabel req.labels aupLabelKey = "")
    (ps : List AcceptableUsePolicy) (p : AcceptableUsePolicy)
    (hl : env.aupList = some ps)
    (hf : ps.find? (fun q => q.email == req.spec.email) = some p) :
    aupStage env req =
      { createFailed := false, policyAgreed := p.accepted,
        labels := [(aupLabelKey, p.name)], created := none,
        labelUpdateIssued := true } := by
  simp [aupStage, hlab, hl, hf]

theorem aupStage_create (env : Env) (req : RoleRequest)
    (hlab : lookupLabel req.labels aupLabelKey = "")
    (ps : List AcceptableUsePolicy)
    (hl : env.aupList = some ps)
    (hf : ps.find? (fun q => q.email == req.spec.email) = none)
    (hok : env.aupCreateOk = true) :
    aupStage env req =
      { createFailed := false, policyAgreed := false,
        labels := [(aupLabelKey, req.name ++ "-" ++ env.aupSuffix)],
        created := some ⟨req.name ++ "-" ++ env.aupSuffix, req.spec.email, false⟩,
        labelUpdateIssued := true } := by
  simp [aupStage, hlab, hl, hf, hok]

/-- **C10 (confirmed)**: when the reconciler persists the
acceptable-use-policy back-reference — whether adopting an existing
generated policy or after creating a new one — it replaces the request's
whole label map by the single `edge-net.io/acceptable-use-policy` entry,
erasing every other label. -/
theorem aup_label_replaces_all (env : Env) (req : RoleRequest)
    (ns : List (String × String))
    (hp : permCheck env = .decided true ns)
    (hr : roleExistsOf env req = true)
    (hlab : lookupLabel req.labels aupLabelKey = "")
    (ps : List AcceptableUsePolicy)
    (hl : env.aupList = some ps) :
    (∀ p, ps.find? (fun q => q.email == req.spec.email) = some p →
      (applyProcedure env req).labels = [(aupLabelKey, p.name)] ∧
      (applyProcedure env req).labelUpdateIssued = true ∧
      ∀ k, k ≠ aupLabelKey → lookupLabel (applyProcedure env req).labels k = "") ∧
    (ps.find? (fun q => q.email == req.spec.email) = none → env.aupCreateOk = true →
      (applyProcedure env req).labels
          = [(aupLabelKey, req.name ++ "-" ++ env.aupSuffix)] ∧
      (applyProcedure env req).labelUpdateIssued = true ∧
      ∀ k, k ≠ aupLabelKey → lookupLabel (applyProcedure env req).labels k = "") := by
  have hpost := applyCore_labels_post_role env (initExpiry env req) ns hp hr
  constructor
  · intro p hf
    have hstage := aupStage_adopt env (initExpiry env req) hlab ps p hl hf
    have hlabels : (applyProcedure env req).labels = [(aupLabelKey, p.name)] := by
      show (applyCore env (initExpiry env req)).labels = _
      rw [hpost.1, hstage]
    refine ⟨hlabels, ?_, ?_⟩
    · show (applyCore env (initExpiry env req)).labelUpdateIssued = true
      rw [hpost.2, hstage]
    · intro k hk
      rw [hlabels]
      exact lookupLabel_singleton_ne k aupLabelKey p.name hk
  · intro hf hok
    have hstage := aupStage_create env (initExpiry env req) hlab ps hl hf hok
    have hlabels : (applyProcedure env req).labels
        = [(aupLabelKey, req.name ++ "-" ++ env.aupSuffix)] := by
      show (applyCore env (initExpiry env req)).labels = _
      rw [hpost.1, hstage]; rfl
    refine ⟨hlabels, ?_, ?_⟩
    · show (applyCore env (initExpiry env req)).labelUpdateIssued = true
      rw [hpost.2, hstage]
    · intro k hk
      rw [hlabels]
      exact lookupLabel_singleton_ne k aupLabelKey _ hk

/-- Witness for `aup_label_replaces_all`: a request carrying an unrelated
`team` label adopts policy `pol1` and loses that label. -/
theorem aup_label_replaces_all_witness :
    (applyProcedure
        { env0 with
          roles := some ["collaborator"],
          aupList := some [⟨"pol1", "ada@edge.io", false⟩] }
        { req0 with labels := [("team", "x")] }).labels = [(aupLabelKey, "pol1")] ∧
    lookupLabel (applyProcedure
        { env0 with
          roles := some ["collaborator"],
          aupList := some [⟨"pol1", "ada@edge.io", false⟩] }
        { req0 with labels := [("team", "x")] }).labels "team" = "" := by
  have h := (aup_label_replaces_all
    { env0 with
      roles := some ["collaborator"],
      aupList := some [⟨"pol1", "ada@edge.io", false⟩] }
    { req0 with labels := [("team", "x")] } []
    (by decide) (by decide) (by decide)
    [⟨"pol1", "ada@edge.io", false⟩] rfl).1
    ⟨"pol1", "ada@edge.io", false⟩ (by decide)
  exact ⟨h.1, h.2.2 "team" (by decide)⟩

/-! ### Approved path: role-binding resolution (C6) -/

theorem bindScan_no_target (env : Env) (req : RoleRequest) (rbs : List RoleBinding)
    (h : ∀ rb ∈ rbs, isTargetBinding req rb = false) :
    ∀ ex bd, bindScan env req rbs ex bd =
      { bindingExists := ex, roleBound := bd, updated := none,
        updateFailed := false } := by
  induction rbs with
  | nil => intro ex bd; rfl
  | cons rb rest ih =>
    intro ex bd
    have hrb := h rb (List.mem_cons_self rb rest)
    simp only [bindScan, hrb, Bool.false_eq_true, if_false]
    exact ih (fun x hx => h x (List.mem_cons_of_mem rb hx)) ex bd

/-- number of listed bindings matching the target name. -/
def countTargets (req : RoleRequest) : List RoleBinding → Nat
  | [] => 0
  | rb :: rest => (if isTargetBinding req rb then 1 else 0) + countTargets req rest

theorem countTargets_zero (req : RoleRequest) (rbs : List RoleBinding)
    (h : countTargets req rbs = 0) :
    ∀ x ∈ rbs, isTargetBinding req x = false := by
  induction rbs with
  | nil => intro x hx; cases hx
  | cons rb rest ih =>
    intro x hx
    simp only [countTargets] at h
    rcases List.mem_cons.mp hx with hx | hx
    · subst hx
      by_cases hb : isTargetBinding req x = true
      · rw [if_pos hb] at h; omega
      · simpa using hb
    · refine ih ?_ x hx
      omega

/-- Characterization of the binding loop when at most one listed binding
matches the target name (role-binding names are unique in a namespace). -/
theorem bindScan_found (env : Env) (req : RoleRequest) (rbs : List RoleBinding)
    (huniq : countTargets req rbs ≤ 1) :
    bindScan env req rbs false false =
      match rbs.find? (fun rb => isTargetBinding req rb) with
      | none =>
        { bindingExists := false, roleBound := false, updated := none,
          updateFailed := false }
      | some rb =>
        if hasEmailSubject rb req.spec.email then
          { bindingExists := true, roleBound := true, updated := none,
            updateFailed := false }
        else if env.rbUpdateOk then
          { bindingExists := true, roleBound := true,
            updated := some { rb with subjects := rb.subjects ++ [mkSubject req.spec.email] },
            updateFailed := false }
        else
          { bindingExists := true, roleBound := false,
            updated := some { rb with subjects := rb.subjects ++ [mkSubject req.spec.email] },
            updateFailed := true } := by
  induction rbs with
  | nil => rfl
  | cons rb rest ih =>
    by_cases ht : isTargetBinding req rb = true
    · have hcount : countTargets req rest = 0 := by
        simp only [countTargets, if_pos ht] at huniq; omega
      have hrest := countTargets_zero req rest hcount
      have hfind : List.find? (fun x => isTargetBinding req x) (rb :: rest) = some rb := by
        simp [List.find?_cons, ht]
      rw [hfind]
      by_cases hs : hasEmailSubject rb req.spec.email = true
      · simp only [bindScan, ht, if_true, Bool.false_or, hs]
        rw [bindScan_no_target env req rest hrest true true]
      · have hs2 : hasEmailSubject rb req.spec.email = false := by simpa using hs
        simp only [bindScan, ht, if_true, Bool.false_or, hs2, Bool.false_eq_true, if_false]
    · have ht2 : isTargetBinding req rb = false := by simpa using ht
      have hfind : List.find? (fun x => isTargetBinding req x) (rb :: rest)
          = List.find? (fun x => isTargetBinding req x) rest := by
        simp [List.find?_cons, ht2]
      rw [hfind]
      have huniq2 : countTargets req rest ≤ 1 := by
        simp only [countTargets, ht2] at huniq; simpa using huniq
      simp only [bindScan, ht2, Bool.false_eq_true, if_false]
      exact ih huniq2

theorem aupStage_label_resolved (env : Env) (req : RoleRequest)
    (pname : String) (p : AcceptableUsePolicy)
    (hlab : lookupLabel req.labels aupLabelKey = pname) (hne : pname ≠ "")
    (hget : env.aupGet pname = some p) (hm : p.email = req.spec.email) :
    aupStage env req =
      { createFailed := false, policyAgreed := p.accepted,
        labels := req.labels, created := none, labelUpdateIssued := false } := by
  have hmb : (p.email == req.spec.email) = true := by rw [hm]; exact beq_self_eq_true _
  simp [aupStage, hlab, hne, hget, hmb]

/-- The shape of the procedure body on the fully-approved path, as a
function of the binding scan. -/
theorem applyCore_approved_path (env : Env) (req : RoleRequest)
    (ns : List (String × String)) (rbs : List RoleBinding)
    (hp : permCheck env = .decided true ns)
    (hr : roleExistsOf env req = true)
    (hcf : (aupStage env req).createFailed = false)
    (hag : (aupStage env req).policyAgreed = true)
    (happ : req.spec.approved = true)
    (hrb : env.roleBindings = some rbs) :
    applyCore env req =
      (if (bindScan env req rbs false false).bindingExists then
        { baseResult
            (if (bindScan env req rbs false false).updateFailed then
              { req.status with state := failure, message := messageBindingFailed }
            else { req.status with state := approved, message := messageRoleApproved })
            (aupStage env req).labels with
          aupAccessed := true, aupCreated := (aupStage env req).created,
          labelUpdateIssued := (aupStage env req).labelUpdateIssued,
          rbUpdated := (bindScan env req rbs false false).updated,
          approvedNotified := (bindScan env req rbs false false).roleBound }
      else if env.rbCreateOk then
        { baseResult { req.status with state := approved, message := messageRoleApproved }
            (aupStage env req).labels with
          aupAccessed := true, aupCreated := (aupStage env req).created,
          labelUpdateIssued := (aupStage env req).labelUpdateIssued,
          rbCreated := some (newBindingOf req), approvedNotified := true }
      else
        { baseResult { req.status with state := failure, message := messageBindingFailed }
            (aupStage env req).labels with
          aupAccessed := true, aupCreated := (aupStage env req).created,
          labelUpdateIssued := (aupStage env req).labelUpdateIssued,
          rbCreated := some (newBindingOf req), approvedNotified := false }) := by
  simp only [applyCore, hp, hr, hcf, hag, happ, Bool.not_true, Bool.not_false,
    Bool.false_eq_true, if_false, if_true, hrb]

theorem initExpiry_spec (env : Env) (req : RoleRequest) :
    (initExpiry env req).spec = req.spec := rfl

theorem isTargetBinding_initExpiry (env : Env) (req : RoleRequest) (rb : RoleBinding) :
    isTargetBinding (initExpiry env req) rb = isTargetBinding req rb := rfl

theorem newBindingOf_initExpiry (env : Env) (req : RoleRequest) :
    newBindingOf (initExpiry env req) = newBindingOf req := rfl

theorem countTargets_initExpiry (env : Env) (req : RoleRequest) (l : List RoleBinding) :
    countTargets (initExpiry env req) l = countTargets req l := by
  induction l with
  | nil => rfl
  | cons rb rest ih => simp [countTargets, isTargetBinding_initExpiry, ih]

/-- **C6 (confirmed)**: on the approved path, when the generated binding
for the exact role kind+name already exists and the requester's email is
among its subjects, no binding write is issued; when it exists without
that subject, the update payload is the old binding with the requester
appended (no subject removed); when no such binding exists, a create is
issued whose sole subject is the requester; and a failing update or create
flips the state set to Approved earlier in the same reconcile to Failure
with the binding-failed message. -/
theorem approved_binding_behaviour (env : Env) (req : RoleRequest)
    (ns : List (String × String)) (rbs : List RoleBinding)
    (pname : String) (p : AcceptableUsePolicy)
    (hp : permCheck env = .decided true ns)
    (hr : roleExistsOf env req = true)
    (hlab : lookupLabel req.labels aupLabelKey = pname)
    (hne : pname ≠ "")
    (hget : env.aupGet pname = some p)
    (hm : p.email = req.spec.email)
    (hacc : p.accepted = true)
    (happ : req.spec.approved = true)
    (hrb : env.roleBindings = some rbs)
    (huniq : countTargets req rbs ≤ 1) :
    (∀ rb, rbs.find? (fun x => isTargetBinding req x) = some rb →
      hasEmailSubject rb req.spec.email = true →
      (applyProcedure env req).rbUpdated = none ∧
      (applyProcedure env req).rbCreated = none ∧
      (applyProcedure env req).status.state = approved) ∧
    (∀ rb, rbs.find? (fun x => isTargetBinding req x) = some rb →
      hasEmailSubject rb req.spec.email = false →
      (applyProcedure env req).rbUpdated
          = some { rb with subjects := rb.subjects ++ [mkSubject req.spec.email] } ∧
      (applyProcedure env req).rbCreated = none ∧
      (env.rbUpdateOk = true → (applyProcedure env req).status.state = approved) ∧
      (env.rbUpdateOk = false →
        (applyProcedure env req).status.state = failure ∧
        (applyProcedure env req).status.message = messageBindingFailed)) ∧
    (rbs.find? (fun x => isTargetBinding req x) = none →
      (applyProcedure env req).rbUpdated = none ∧
      (applyProcedure env req).rbCreated = some (newBindingOf req) ∧
      (newBindingOf req).subjects = [mkSubject req.spec.email] ∧
      (env.rbCreateOk = true → (applyProcedure env req).status.state = approved) ∧
      (env.rbCreateOk = false →
        (applyProcedure env req).status.state = failure ∧
        (applyProcedure env req).status.message = messageBindingFailed)) := by
  have hstage := aupStage_label_resolved env (initExpiry env req) pname p hlab hne hget hm
  have hcf : (aupStage env (initExpiry env req)).createFailed = false := by rw [hstage]
  have hag : (aupStage env (initExpiry env req)).policyAgreed = true := by
    rw [hstage]; exact hacc
  have hpath := applyCore_approved_path env (initExpiry env req) ns rbs hp hr hcf hag happ hrb
  have huniq1 : countTargets (initExpiry env req) rbs ≤ 1 := by
    rw [countTargets_initExpiry]; exact huniq
  have hscan := bindScan_found env (initExpiry env req) rbs huniq1
  simp only [isTargetBinding_initExpiry, initExpiry_spec] at hscan
  refine ⟨?_, ?_, ?_⟩
  · intro rb hfind hsub
    rw [hfind] at hscan
    dsimp only at hscan
    rw [if_pos hsub] at hscan
    rw [hscan] at hpath
    simp only at hpath
    refine ⟨?_, ?_, ?_⟩
    · show (applyCore env (initExpiry env req)).rbUpdated = none
      rw [hpath]; rfl
    · show (applyCore env (initExpiry env req)).rbCreated = none
      rw [hpath]; rfl
    · show (applyCore env (initExpiry env req)).status.state = approved
      rw [hpath]; rfl
  · intro rb hfind hsub
    rw [hfind] at hscan
    dsimp only at hscan
    rw [if_neg (by simp [hsub])] at hscan
    by_cases hok : env.rbUpdateOk = true
    · rw [if_pos hok] at hscan
      rw [hscan] at hpath
      refine ⟨?_, ?_, ?_, ?_⟩
      · show (applyCore env (initExpiry env req)).rbUpdated = _
        rw [hpath]; rfl
      · show (applyCore env (initExpiry env req)).rbCreated = none
        rw [hpath]; rfl
      · intro _
        show (applyCore env (initExpiry env req)).status.state = approved
        rw [hpath]; rfl
      · intro hok2; rw [hok2] at hok; exact Bool.noConfusion hok
    · have hok2 : env.rbUpdateOk = false := by simpa using hok
      rw [hok2] at hscan
      simp only [Bool.false_eq_true, if_false] at hscan
      rw [hscan] at hpath
      refine ⟨?_, ?_, ?_, ?_⟩
      · show (applyCore env (initExpiry env req)).rbUpdated = _
        rw [hpath]; rfl
      · show (applyCore env (initExpiry env req)).rbCreated = none
        rw [hpath]; rfl
      · intro hok3; rw [hok3] at hok2; exact Bool.noConfusion hok2
      · intro _
        constructor
        · show (applyCore env (initExpiry env req)).status.state = failure
          rw [hpath]; rfl
        · show (applyCore env (initExpiry env req)).status.message = messageBindingFailed
          rw [hpath]; rfl
  · intro hfind
    rw [hfind] at hscan
    dsimp only at hscan
    rw [hscan] at hpath
    simp only at hpath
    by_cases hok : env.rbCreateOk = true
    · rw [if_pos hok] at hpath
      refine ⟨?_, ?_, rfl, ?_, ?_⟩
      · show (applyCore env (initExpiry env req)).rbUpdated = none
        rw [hpath]; rfl
      · show (applyCore env (initExpiry env req)).rbCreated = some (newBindingOf req)
        rw [hpath]; rfl
      · intro _
        show (applyCore env (initExpiry env req)).status.state = approved
        rw [hpath]; rfl
      · intro hok2; rw [hok2] at hok; exact Bool.noConfusion hok
    · have hok2 : env.rbCreateOk = false := by simpa using hok
      rw [hok2] at hpath
      simp only [Bool.false_eq_true, if_false] at hpath
      refine ⟨?_, ?_, rfl, ?_, ?_⟩
      · show (applyCore env (initExpiry env req)).rbUpdated = none
        rw [hpath]; rfl
      · show (applyCore env (initExpiry env req)).rbCreated = some (newBindingOf req)
        rw [hpath]; rfl
      · intro hok3; rw [hok3] at hok2; exact Bool.noConfusion hok2
      · intro _
        constructor
        · show (applyCore env (initExpiry env req)).status.state = failure
          rw [hpath]; rfl
        · show (applyCore env (initExpiry env req)).status.message = messageBindingFailed
          rw [hpath]; rfl

/-- environment for the approved-path witness: role exists, policy agreed,
no generated binding listed. -/
def envApproved : Env :=
  { env0 with
    roles := some ["collaborator"],
    aupGet := fun n => if n == "pol1" then some ⟨"pol1", "ada@edge.io", true⟩ else none,
    roleBindings := some [] }

/-- an approved request referencing policy `pol1`. -/
def reqApproved : RoleRequest :=
  { req0 with
    labels := [(aupLabelKey, "pol1")],
    spec := { req0.spec with approved := true } }

/-- Witness for `approved_binding_behaviour` at a concrete input
(no existing binding: a create with the requester as sole subject). -/
theorem approved_binding_behaviour_witness :
    (applyProcedure envApproved reqApproved).rbCreated = some (newBindingOf reqApproved) ∧
    (newBindingOf reqApproved).subjects = [mkSubject reqApproved.spec.email] := by
  have h := (approved_binding_behaviour envApproved reqApproved [] [] "pol1"
    ⟨"pol1", "ada@edge.io", true⟩
    (by decide) (by decide) (by decide) (by decide) (by decide) rfl rfl rfl rfl
    (by decide)).2.2 rfl
  exact ⟨h.2.1, h.2.2.1⟩

/-! ### Expiry controller: timer fire (C7) -/

theorem foldlMin_le_init (l : List Nat) (a : Nat) : l.foldl min a ≤ a := by
  induction l generalizing a with
  | nil => exact Nat.le_refl a
  | cons b t ih => exact Nat.le_trans (ih (min a b)) (Nat.min_le_left a b)

theorem foldlMin_mem (l : List Nat) (a : Nat) :
    l.foldl min a = a ∨ l.foldl min a ∈ l := by
  induction l generalizing a with
  | nil => exact Or.inl rfl
  | cons b t ih =>
    rcases ih (min a b) with h | h
    · rcases min_choice a b with h2 | h2
      all_goals simp only [List.foldl_cons] at *
      · rw [h, h2]; exact Or.inl rfl
      · rw [h, h2]; exact Or.inr (List.mem_cons_self b t)
    · exact Or.inr (List.mem_cons_of_mem b (by simpa using h))

theorem foldlMin_le_mem (l : List Nat) (a : Nat) :
    ∀ x ∈ l, l.foldl min a ≤ x := by
  induction l generalizing a with
  | nil => intro x hx; cases hx
  | cons b t ih =>
    intro x hx
    rcases List.mem_cons.mp hx with hx | hx
    · subst hx
      exact Nat.le_trans (foldlMin_le_init t (min a x)) (Nat.min_le_right a x)
    · exact ih (min a b) x hx

theorem futureExpiries_pos (now : Nat) (items : List RRItem) :
    ∀ e ∈ futureExpiries now items, now < e := by
  intro e he
  simp only [futureExpiries, List.mem_filterMap] at he
  rcases he with ⟨r, hr, hre⟩
  rcases h2 : r.expiry with _ | x
  · rw [h2] at hre; cases hre
  · rw [h2] at hre
    dsimp only at hre
    by_cases hx : now < x
    · rw [if_pos hx] at hre
      cases hre
      exact hx
    · rw [if_neg hx] at hre; cases hre

/-- The closest-expiry fold, started strictly in the future, computes the
running minimum over the surviving future expiries. -/
theorem fireFold_future (now : Nat) (items : List RRItem) :
    ∀ c, now < c →
      fireFold now c items = (futureExpiries now items).foldl min c := by
  induction items with
  | nil => intro c _; rfl
  | cons r rest ih =>
    intro c h
    rcases hre : r.expiry with _ | e
    · simp only [fireFold, hre, futureExpiries, List.filterMap_cons, hre]
      exact ih c h
    · by_cases he : e ≤ now
      · simp only [fireFold, hre, if_pos he, futureExpiries, List.filterMap_cons,
          if_neg (Nat.not_lt.mpr he)]
        exact ih c h
      · have hlt : now < e := Nat.lt_of_not_le he
        have hcnow : ¬ (c ≤ now ∨ e < c) ∨ (c ≤ now ∨ e < c) := em _ |>.symm
        simp only [fireFold, hre, if_neg (Nat.not_le.mpr hlt), futureExpiries,
          List.filterMap_cons, if_pos hlt]
        have harm : (if c ≤ now ∨ e < c then e else c) = min c e := by
          rcases Nat.lt_or_ge e c with h2 | h2
          · rw [if_pos (Or.inr h2), Nat.min_def, if_neg (Nat.not_le.mpr h2)]
          · rw [if_neg ?hng, Nat.min_def, if_pos h2]
            case hng =>
              rintro (h3 | h3)
              · exact Nat.not_le.mpr h h3
              · exact Nat.not_lt.mpr h2 h3
        rw [harm]
        have hmin : now < min c e := by
          rcases min_choice c e with h2 | h2 <;> rw [h2]
          · exact h
          · exact hlt
        rw [ih (min c e) hmin]
        rfl

/-- The closest-expiry fold, started at an elapsed deadline, lands on the
minimum surviving future expiry (or stays put when there is none). -/
theorem fireFold_past (now : Nat) (items : List RRItem) :
    ∀ c, c ≤ now →
      fireFold now c items =
        match futureExpiries now items with
        | [] => c
        | e :: rest => rest.foldl min e := by
  induction items with
  | nil => intro c _; rfl
  | cons r rest ih =>
    intro c h
    rcases hre : r.expiry with _ | e
    · simp only [fireFold, hre, futureExpiries, List.filterMap_cons]
      exact ih c h
    · by_cases he : e ≤ now
      · simp only [fireFold, hre, if_pos he, futureExpiries, List.filterMap_cons,
          if_neg (Nat.not_lt.mpr he)]
        exact ih c h
      · have hlt : now < e := Nat.lt_of_not_le he
        simp only [fireFold, hre, if_neg (Nat.not_le.mpr hlt), if_pos (Or.inl h),
          futureExpiries, List.filterMap_cons, if_pos hlt]
        exact fireFold_future now rest e hlt

/-- **C7 (confirmed)**: on a timer fire (armed deadline elapsed), the
listed requests deleted are exactly those whose expiry has already passed;
the re-armed deadline is the minimum expiry among surviving requests with
one set, and when no survivor has a future expiry it is now + 1 year. -/
theorem expiry_fire_behaviour (now closest : Nat) (items : List RRItem)
    (h : closest ≤ now) :
    (∀ r, r ∈ deletedOnFire now items ↔ r ∈ items ∧ isExpired now r = true) ∧
    (futureExpiries now items = [] → fireRearm now closest items = now + yearSeconds) ∧
    (∀ e ∈ futureExpiries now items, fireRearm now closest items ≤ e) ∧
    (futureExpiries now items ≠ [] →
      fireRearm now closest items ∈ futureExpiries now items) := by
  have hfold := fireFold_past now items closest h
  refine ⟨?_, ?_, ?_, ?_⟩
  · intro r
    simp [deletedOnFire, List.mem_filter]
  · intro hemp
    rw [hemp] at hfold
    dsimp only at hfold
    simp only [fireRearm, hfold]
    exact if_pos h
  · intro e he
    rcases hcase : futureExpiries now items with _ | ⟨f, fr⟩
    · rw [hcase] at he; cases he
    · rw [hcase] at he hfold
      dsimp only at hfold
      have hf : now < f := futureExpiries_pos now items f
        (by rw [hcase]; exact List.mem_cons_self f fr)
      have hfr : ∀ x ∈ fr, now < x := fun x hx =>
        futureExpiries_pos now items x (by rw [hcase]; exact List.mem_cons_of_mem f hx)
      have hmin_pos : now < fr.foldl min f := by
        rcases foldlMin_mem fr f with h2 | h2
        · rw [h2]; exact hf
        · exact hfr _ h2
      simp only [fireRearm, hfold]
      rw [if_neg (Nat.not_le.mpr hmin_pos)]
      rcases List.mem_cons.mp he with he2 | he2
      · subst he2; exact foldlMin_le_init fr e
      · exact foldlMin_le_mem fr f e he2
  · intro hne
    rcases hcase : futureExpiries now items with _ | ⟨f, fr⟩
    · exact absurd hcase hne
    · rw [hcase] at hfold
      dsimp only at hfold
      have hf : now < f := futureExpiries_pos now items f
        (by rw [hcase]; exact List.mem_cons_self f fr)
      have hfr : ∀ x ∈ fr, now < x := fun x hx =>
        futureExpiries_pos now items x (by rw [hcase]; exact List.mem_cons_of_mem f hx)
      have hmin_pos : now < fr.foldl min f := by
        rcases foldlMin_mem fr f with h2 | h2
        · rw [h2]; exact hf
        · exact hfr _ h2
      simp only [fireRearm, hfold]
      rw [if_neg (Nat.not_le.mpr hmin_pos)]
      rcases foldlMin_mem fr f with h2 | h2
      · rw [h2]; exact List.mem_cons_self f fr
      · exact List.mem_cons_of_mem f h2

/-- Witness for `expiry_fire_behaviour` at a concrete input: at time 10,
expiry 5 is deleted, expiry 20 survives and becomes the new deadline. -/
theorem expiry_fire_behaviour_witness :
    (⟨"n", "a", some 5⟩ ∈
      deletedOnFire 10 [⟨"n", "a", some 5⟩, ⟨"n", "b", some 20⟩, ⟨"n", "c", none⟩] ↔
      (⟨"n", "a", some 5⟩ ∈
        ([⟨"n", "a", some 5⟩, ⟨"n", "b", some 20⟩, ⟨"n", "c", none⟩] : List RRItem) ∧
        isExpired 10 ⟨"n", "a", some 5⟩ = true)) ∧
    fireRearm 10 0 [⟨"n", "a", some 5⟩, ⟨"n", "b", some 20⟩, ⟨"n", "c", none⟩] ∈
      futureExpiries 10 [⟨"n", "a", some 5⟩, ⟨"n", "b", some 20⟩, ⟨"n", "c", none⟩] :=
  ⟨(expiry_fire_behaviour 10 0 _ (by decide)).1 _,
   (expiry_fire_behaviour 10 0 _ (by decide)).2.2.2 (by decide)⟩

end EdgeNet
